import Mathlib

/-!
Verification of the gqlclient GraphQL client library.

The development shallowly embeds the Go package `gqlclient`
(file `gqlclient/gqlclient.go`) in Lean 4:

* `packQuery` embeds the whitespace normalizer
  (`strings.Join(strings.Fields(*str), " ")`);
* `Json`, `GoValue` and the marshalling functions embed the
  `encoding/json` behaviour the package relies on;
* `gqlClient`, `CreateClient`, `GetTargetURL` and `Query` embed the
  client handle and its operations, with the HTTP transport passed in
  explicitly (the Go code routes all I/O through the package-scoped,
  test-overridable `httpClient`).
-/

namespace Gql

/-- Go `unicode.IsSpace`, restricted to the code points it accepts:
ASCII whitespace, NEL, NBSP and the Unicode `White_Space` code points. -/
def isGoSpace (c : Char) : Bool :=
  let n := c.toNat
  n = 0x20 || (0x9 ≤ n && n ≤ 0xD) || n = 0x85 || n = 0xA0 ||
  n = 0x1680 || (0x2000 ≤ n && n ≤ 0x200A) || n = 0x2028 || n = 0x2029 ||
  n = 0x202F || n = 0x205F || n = 0x3000

/-- Accumulator-style splitter behind `goFields`: `acc` holds the
characters of the token currently being read, in reverse. -/
def fieldsAux : List Char → List Char → List (List Char)
  | [], acc => if acc.isEmpty then [] else [acc.reverse]
  | c :: rest, acc =>
    if isGoSpace c then
      if acc.isEmpty then fieldsAux rest []
      else acc.reverse :: fieldsAux rest []
    else fieldsAux rest (c :: acc)

/-- Go `strings.Fields`: the maximal runs of non-whitespace characters
of `s`, in order. -/
def goFields (s : List Char) : List (List Char) :=
  fieldsAux s []

/-- Go `strings.Join`: concatenate with `sep` between consecutive
elements. -/
def goJoin (sep : List Char) : List (List Char) → List Char
  | [] => []
  | [x] => x
  | x :: y :: xs => x ++ sep ++ goJoin sep (y :: xs)

/-- Character-list core of `packQuery`:
`strings.Join(strings.Fields(s), " ")`. -/
def packQueryL (s : List Char) : List Char :=
  goJoin [' '] (goFields s)

/-- `packQuery` strips whitespace and newlines from a formatted GraphQL
query, reducing all whitespace character sequences to single spaces. -/
def packQuery (s : String) : String :=
  String.mk (packQueryL s.data)

theorem fieldsAux_ne_nil (s : List Char) :
    ∀ acc, ∀ t ∈ fieldsAux s acc, t ≠ [] := by
  induction s with
  | nil =>
    intro acc t ht
    simp only [fieldsAux] at ht
    split at ht
    · simp at ht
    · next h =>
      simp only [List.mem_singleton] at ht
      subst ht
      simpa [List.isEmpty_iff] using h
  | cons c rest ih =>
    intro acc t ht
    simp only [fieldsAux] at ht
    split at ht
    · split at ht
      · exact ih [] t ht
      · next h =>
        rcases List.mem_cons.mp ht with h' | h'
        · subst h'
          simpa [List.isEmpty_iff] using h
        · exact ih [] t h'
    · exact ih (c :: acc) t ht

theorem fieldsAux_no_space (s : List Char) :
    ∀ acc, (∀ c ∈ acc, isGoSpace c = false) →
      ∀ t ∈ fieldsAux s acc, ∀ c ∈ t, isGoSpace c = false := by
  induction s with
  | nil =>
    intro acc hacc t ht c hc
    simp only [fieldsAux] at ht
    split at ht
    · simp at ht
    · simp only [List.mem_singleton] at ht
      subst ht
      exact hacc c (List.mem_reverse.mp hc)
  | cons d rest ih =>
    intro acc hacc t ht c hc
    simp only [fieldsAux] at ht
    split at ht
    · split at ht
      · exact ih [] (by simp) t ht c hc
      · rcases List.mem_cons.mp ht with h' | h'
        · subst h'
          exact hacc c (List.mem_reverse.mp hc)
        · exact ih [] (by simp) t h' c hc
    · next hd =>
      refine ih (d :: acc) ?_ t ht c hc
      intro e he
      rcases List.mem_cons.mp he with h' | h'
      · subst h'; simpa using hd
      · exact hacc e h'

theorem goFields_all_space (s : List Char) (h : ∀ c ∈ s, isGoSpace c = true) :
    goFields s = [] := by
  induction s with
  | nil => rfl
  | cons c rest ih =>
    have hc : isGoSpace c = true := h c (List.mem_cons_self c rest)
    simp only [goFields, fieldsAux, hc, if_pos, List.isEmpty_nil, if_true]
    exact ih fun d hd => h d (List.mem_cons_of_mem c hd)

theorem goJoin_eq_intercalate (sep : List Char) (L : List (List Char)) :
    goJoin sep L = sep.intercalate L := by
  induction L with
  | nil => simp [goJoin, List.intercalate, List.intersperse]
  | cons x xs ih =>
    cases xs with
    | nil => simp [goJoin, List.intercalate, List.intersperse]
    | cons y ys =>
      simp only [goJoin, List.intercalate, List.intersperse] at *
      simp [ih, List.append_assoc]

theorem goJoin_ne_nil (L : List (List Char)) (hL : L ≠ [])
    (h : ∀ t ∈ L, t ≠ []) : goJoin [' '] L ≠ [] := by
  cases L with
  | nil => exact absurd rfl hL
  | cons x xs =>
    cases xs with
    | nil =>
      exact h x (List.mem_cons_self x [])
    | cons y ys =>
      simp only [goJoin]
      intro hcontra
      have := List.append_eq_nil.mp (List.append_eq_nil.mp hcontra).1
      exact h x (List.mem_cons_self x _) this.1

theorem joined_head_ne_space (L : List (List Char))
    (h : ∀ t ∈ L, t ≠ [] ∧ ∀ c ∈ t, isGoSpace c = false) :
    (goJoin [' '] L).head? ≠ some ' ' := by
  cases L with
  | nil => simp [goJoin]
  | cons x xs =>
    have hx := h x (List.mem_cons_self x xs)
    have hhead : (goJoin [' '] (x :: xs)).head? = x.head? := by
      cases xs with
      | nil => rfl
      | cons y ys =>
        simp only [goJoin, List.append_assoc]
        exact List.head?_append_of_ne_nil x hx.1
    rw [hhead]
    intro hc
    have hmem : ' ' ∈ x := List.mem_of_mem_head? (by rw [hc]; rfl)
    have := hx.2 ' ' hmem
    simp [isGoSpace] at this

theorem joined_last_ne_space (L : List (List Char))
    (h : ∀ t ∈ L, t ≠ [] ∧ ∀ c ∈ t, isGoSpace c = false) :
    (goJoin [' '] L).getLast? ≠ some ' ' := by
  induction L with
  | nil => simp [goJoin]
  | cons x xs ih =>
    cases xs with
    | nil =>
      simp only [goJoin]
      intro hc
      have hx := h x (List.mem_cons_self x [])
      have hmem : ' ' ∈ x := List.mem_of_mem_getLast? (by rw [hc]; rfl)
      have := hx.2 ' ' hmem
      simp [isGoSpace] at this
    | cons y ys =>
      have hrest : ∀ t ∈ y :: ys, t ≠ [] ∧ ∀ c ∈ t, isGoSpace c = false :=
        fun t ht => h t (List.mem_cons_of_mem x ht)
      have hne : goJoin [' '] (y :: ys) ≠ [] :=
        goJoin_ne_nil (y :: ys) (List.cons_ne_nil y ys) fun t ht => (hrest t ht).1
      have : (goJoin [' '] (x :: y :: ys)).getLast? =
          (goJoin [' '] (y :: ys)).getLast? := by
        simp only [goJoin, List.append_assoc]
        rw [List.getLast?_append_of_ne_nil]
        · exact List.getLast?_append_of_ne_nil [' '] hne
        · intro hcontra
          exact hne (List.append_eq_nil.mp hcontra).2
      rw [this]
      exact ih hrest

theorem chain_of_no_space (l : List Char)
    (h : ∀ c ∈ l, isGoSpace c = false) :
    List.Chain' (fun a b => ¬(a = ' ' ∧ b = ' ')) l := by
  induction l with
  | nil => simp
  | cons c rest ih =>
    rw [List.chain'_cons']
    constructor
    · intro y _ hy
      have := h c (List.mem_cons_self c rest)
      rw [hy.1] at this
      simp [isGoSpace] at this
    · exact ih fun d hd => h d (List.mem_cons_of_mem c hd)

theorem joined_chain (L : List (List Char))
    (h : ∀ t ∈ L, t ≠ [] ∧ ∀ c ∈ t, isGoSpace c = false) :
    List.Chain' (fun a b => ¬(a = ' ' ∧ b = ' ')) (goJoin [' '] L) := by
  induction L with
  | nil => simp [goJoin]
  | cons x xs ih =>
    have hx := h x (List.mem_cons_self x xs)
    cases xs with
    | nil => exact chain_of_no_space x hx.2
    | cons y ys =>
      have hrest : ∀ t ∈ y :: ys, t ≠ [] ∧ ∀ c ∈ t, isGoSpace c = false :=
        fun t ht => h t (List.mem_cons_of_mem x ht)
      have hjoin : goJoin [' '] (x :: y :: ys) = x ++ (' ' :: goJoin [' '] (y :: ys)) := by
        simp [goJoin, List.append_assoc]
      rw [hjoin]
      apply List.Chain'.append (chain_of_no_space x hx.2)
      · rw [List.chain'_cons']
        refine ⟨?_, ih hrest⟩
        intro z hz hcontra
        exact joined_head_ne_space (y :: ys) hrest (by rw [hz, hcontra.2])
      · intro a ha b hb hcontra
        have hmem : a ∈ x := List.mem_of_mem_getLast? ha
        have := hx.2 a hmem
        rw [hcontra.1] at this
        simp [isGoSpace] at this

theorem goFields_tokens (s : List Char) :
    ∀ t ∈ goFields s, t ≠ [] ∧ ∀ c ∈ t, isGoSpace c = false :=
  fun t ht =>
    ⟨fieldsAux_ne_nil s [] t ht,
     fieldsAux_no_space s [] (by simp) t ht⟩

theorem splitOn_packQueryL (s : List Char) (h : goFields s ≠ []) :
    (packQueryL s).splitOn ' ' = goFields s := by
  have hx : ∀ l ∈ goFields s, ' ' ∉ l := by
    intro l hl hmem
    have := (goFields_tokens s l hl).2 ' ' hmem
    simp [isGoSpace] at this
  rw [packQueryL, goJoin_eq_intercalate]
  exact List.splitOn_intercalate (goFields s) ' ' hx h

/-- Claim C3: for every input string, `packQuery` equals the non-empty
whitespace-delimited tokens of the input rejoined with single spaces:
the output has no two consecutive spaces and no leading or trailing
space, splitting it on single spaces reproduces the tokens in order, and
a whitespace-only input (including the empty string) yields the empty
string. -/
theorem c3_packQuery_normalizes (s : String) :
    List.Chain' (fun a b => ¬(a = ' ' ∧ b = ' ')) (packQuery s).data ∧
    (packQuery s).data.head? ≠ some ' ' ∧
    (packQuery s).data.getLast? ≠ some ' ' ∧
    (goFields s.data ≠ [] → (packQuery s).data.splitOn ' ' = goFields s.data) ∧
    ((∀ c ∈ s.data, isGoSpace c = true) → packQuery s = "") ∧
    (packQuery s).data = List.intercalate [' '] (goFields s.data) := by
  have htok := goFields_tokens s.data
  have hdata : (packQuery s).data = packQueryL s.data := rfl
  refine ⟨?_, ?_, ?_, ?_, ?_, ?_⟩
  · rw [hdata]; exact joined_chain (goFields s.data) htok
  · rw [hdata]; exact joined_head_ne_space (goFields s.data) htok
  · rw [hdata]; exact joined_last_ne_space (goFields s.data) htok
  · intro h; rw [hdata]; exact splitOn_packQueryL s.data h
  · intro h
    have : packQueryL s.data = [] := by
      rw [packQueryL, goFields_all_space s.data h]; simp [goJoin]
    show String.mk (packQueryL s.data) = ""
    rw [this]
  · rw [hdata, packQueryL, goJoin_eq_intercalate]

/-- The spec scenario input for query normalization. -/
def normScenario : String :=
  "\n\tthis     \t    is a \n\t test of     whitespace\n\t\n\tremoval\n\n"

/-- Witness for C3: the theorem applied at the spec scenario input, with
its conditional parts discharged there, and the resulting normalized
string evaluated. -/
theorem c3_packQuery_normalizes_witness :
    ((packQuery normScenario).data.splitOn ' ' = goFields normScenario.data ∧
      packQuery "   \n\t  " = "") ∧
    packQuery normScenario = "this is a test of whitespace removal" := by
  have h1 := c3_packQuery_normalizes normScenario
  have h2 := c3_packQuery_normalizes "   \n\t  "
  exact ⟨⟨h1.2.2.2.1 (by decide), h2.2.2.2.2.1 (by decide)⟩, by decide⟩

/-! ## JSON values and `encoding/json` marshalling -/

/-- A JSON document, as produced or consumed by `encoding/json`. -/
inductive Json where
  | null
  | bool (b : Bool)
  | num (n : Int)
  | str (s : String)
  | arr (items : List Json)
  | obj (members : List (String × Json))

/-- A Go `interface\x7b\x7d` value supplied as a query variable: either a
value `encoding/json` can marshal (abstracted by the JSON document it
marshals to), or one it cannot (a func, channel or complex value, or a
cyclic structure), tagged with the type name the marshal error reports. -/
inductive GoValue where
  | encodable (j : Json)
  | unencodable (desc : String)

/-- `json.Marshal` on a single variable value. -/
def marshalValue : GoValue → Except String Json
  | .encodable j => .ok j
  | .unencodable desc => .error ("json: unsupported type: " ++ desc)

/-- The `queryParms` map `map[string]interface\x7b\x7d`, as an
association list. -/
abbrev Variables : Type := List (String × GoValue)

/-- `json.Marshal` on the variables map: fails as soon as one value is
unmarshalable. -/
def marshalVars : List (String × GoValue) → Except String (List (String × Json))
  | [] => .ok []
  | (k, v) :: rest =>
    match marshalValue v, marshalVars rest with
    | .ok j, .ok js => .ok ((k, j) :: js)
    | .error e, _ => .error e
    | _, .error e => .error e

/-- `json.Marshal` of the wrapper `query` struct
(`Query string; Variables map[string]interface\x7b\x7d`), as the JSON
document it serializes to. -/
def marshalQuery (packed : String) (parms : List (String × GoValue)) :
    Except String Json :=
  match marshalVars parms with
  | .error e => .error e
  | .ok vs => .ok (.obj [("query", .str packed), ("variables", .obj vs)])

/-! ## Response envelope decoding (`json.Unmarshal` into `QueryResponse`) -/

/-- `QueryResponse` from the source: an opaque `data` payload (the
caller-declared shape is abstracted as the raw JSON decoded into it,
`none` for Go `nil`) and the `errors` list reduced to its message
strings. -/
structure QueryResponse where
  Data : Option Json
  Errors : List String

/-- First binding of a key in a decoded JSON object. -/
def lookupField (k : String) : List (String × Json) → Option Json
  | [] => none
  | (k', v) :: rest => if k' = k then some v else lookupField k rest

/-- `json.Unmarshal` of one element of the `errors` array into
`struct \x7b Message string \x7d`: an object's `message` member must be a
string (absent or `null` leaves the zero value); `null` has no effect;
anything else is a type error. -/
def decodeErrItem (j : Json) : Except String String :=
  match j with
  | .null => .ok ""
  | .obj fs =>
    match lookupField "message" fs with
    | none => .ok ""
    | some (.str m) => .ok m
    | some .null => .ok ""
    | some _ => .error "json: cannot unmarshal value into Go struct field Message of type string"
  | _ => .error "json: cannot unmarshal value into Go struct field Errors"

/-- Decode every element of the `errors` array, failing on the first
type error. -/
def decodeErrList : List Json → Except String (List String)
  | [] => .ok []
  | j :: rest =>
    match decodeErrItem j, decodeErrList rest with
    | .ok m, .ok ms => .ok (m :: ms)
    | .error e, _ => .error e
    | _, .error e => .error e

/-- `json.Unmarshal` of a parsed JSON document into the `QueryResponse`
envelope: a top-level object's `data` member is stored opaquely and its
`errors` member is decoded into message strings; `null` members (and a
`null` document) have no effect; other shapes are type errors. -/
def decodeEnvelope (j : Json) (r : QueryResponse) : Except String QueryResponse :=
  match j with
  | .null => .ok r
  | .obj fs =>
    let dta : Option Json :=
      match lookupField "data" fs with
      | none => r.Data
      | some .null => r.Data
      | some d => some d
    match lookupField "errors" fs with
    | none => .ok ⟨dta, r.Errors⟩
    | some .null => .ok ⟨dta, r.Errors⟩
    | some (.arr items) =>
      match decodeErrList items with
      | .ok ms => .ok ⟨dta, ms⟩
      | .error e => .error e
    | some _ => .error "json: cannot unmarshal value into Go struct field Errors"
  | _ => .error "json: cannot unmarshal value into Go value of type gqlclient.QueryResponse"

/-- `json.Unmarshal(body, &response)` where the raw body bytes are
abstracted by the JSON document they parse to (`none` when the bytes -
possibly empty or truncated - are not valid JSON). -/
def unmarshalEnvelope : Option Json → QueryResponse → Except String QueryResponse
  | none, _ => .error "unexpected end of JSON input"
  | some j, r => decodeEnvelope j r

/-! ## The client and its `Query` operation -/

/-- The private `gqlClient` struct: target URL and optional
authorization header value (a Go `*string`, `none` for `nil`). -/
structure gqlClient where
  targetURL : String
  authorization : Option String

/-- `CreateClient` returns an initialized client wrapping the target URL
and the write-only authorization value. -/
def CreateClient (targetURL : String) (authorization : Option String) : gqlClient :=
  ⟨targetURL, authorization⟩

/-- `GetTargetURL` returns the target API URL of the client. -/
def GetTargetURL (gc : gqlClient) : String :=
  gc.targetURL

/-- The `*http.Request` built for the POST, with the raw body bytes
abstracted by the JSON document serialized into them. -/
structure HttpRequest where
  method : String
  url : String
  headers : List (String × String)
  body : Json

/-- What `ioutil.ReadAll` plus JSON parsing observe of an
`*http.Response`: status code, status text (`resp.Status` is the code
followed by this text), the parse of the body bytes that were obtained
(`none` when they are not valid JSON), and the error, if any, that
reading the body reported alongside those bytes. -/
structure TransportResponse where
  statusCode : Nat
  statusText : String
  body : Option Json
  readErr : Option String

/-- Result of `httpClient.Do`: a network-level failure carrying its
cause, or a response. -/
inductive TransportResult where
  | failure (cause : String)
  | success (resp : TransportResponse)

/-- The ambient HTTP machinery `Query` calls into: whether
`http.NewRequest` accepts the URL (it parses the URL and errors on a
malformed one), and the round trip performed by the package-scoped,
test-overridable `httpClient`. -/
structure HttpEnv where
  urlOK : String → Bool
  send : HttpRequest → TransportResult

/-- The distinct error returns of `Query`, one constructor per `return`
site: the `json.Marshal` error, the `httpClient.Do` error, the fixed
401 message, the `errors.New` message built from `resp.Status`, and the
`json.Unmarshal` error. -/
inductive GqlError where
  | serializationError (msg : String)
  | transportError (cause : String)
  | authorizationError
  | statusError (code : Nat) (text : String)
  | decodeError (msg : String)

/-- How a `Query` call returns to the caller: a Go panic (a nil pointer
dereference in the method body), an error return, or a nil return. -/
inductive QueryResult where
  | panicked
  | failed (e : GqlError)
  | ok

/-- The message string of the Go `error` value each `GqlError` stands
for. -/
def GqlError.message : GqlError → String
  | .serializationError m => m
  | .transportError c => c
  | .authorizationError =>
    "Recieved 401 UNAUTHORIZED response! Did you need to provide an authorization key?"
  | .statusError code text =>
    "Expected 200 response but received: " ++ toString code ++ " " ++ text
  | .decodeError m => m

/-- Everything observable about one `Query` call: how it returned, the
final contents of the caller's `*response` target, and the requests
handed to the transport (empty when the call aborted before any network
I/O). -/
structure QueryOutcome where
  result : QueryResult
  response : QueryResponse
  sent : List HttpRequest

/-- The headers attached to the POST: `Content-Type` always, then
`Authorization` exactly when an authorization value is stored, verbatim. -/
def authHeaders : Option String → List (String × String)
  | some a => [("Authorization", a)]
  | none => []

/-- The request built by `Query` before submission. -/
def buildRequest (gc : gqlClient) (body : Json) : HttpRequest :=
  ⟨"POST", gc.targetURL,
    ("Content-Type", "application/json") :: authHeaders gc.authorization, body⟩

/-- `Query` sends a GraphQL query to the configured URL and parses the
response into the caller's envelope, mirroring the Go method line by
line: it dereferences `queryParms` (panicking on `nil`), marshals the
wrapper struct, builds the POST (`http.NewRequest`'s error is discarded,
so a URL it rejects leaves `req` nil and the following `req.Header.Set`
panics), submits it, returns transport and non-200 status failures, and
on 200 unmarshals the body bytes (the `ReadAll` error is discarded) into
`response`. -/
def Query (gc : gqlClient) (env : HttpEnv) (queryStr : String)
    (queryParms : Option Variables) (response : QueryResponse) : QueryOutcome :=
  match queryParms with
  | none => ⟨.panicked, response, []⟩
  | some parms =>
    match marshalQuery (packQuery queryStr) parms with
    | .error e => ⟨.failed (.serializationError e), response, []⟩
    | .ok body =>
      if env.urlOK gc.targetURL then
        let req := buildRequest gc body
        match env.send req with
        | .failure cause => ⟨.failed (.transportError cause), response, [req]⟩
        | .success resp =>
          if resp.statusCode ≠ 200 then
            if resp.statusCode = 401 then
              ⟨.failed .authorizationError, response, [req]⟩
            else
              ⟨.failed (.statusError resp.statusCode resp.statusText), response, [req]⟩
          else
            match unmarshalEnvelope resp.body response with
            | .error m => ⟨.failed (.decodeError m), response, [req]⟩
            | .ok r => ⟨.ok, r, [req]⟩
      else ⟨.panicked, response, []⟩

/-! ## Helper lemmas about `Query` -/

theorem marshalQuery_ok {parms : List (String × GoValue)}
    {vs : List (String × Json)} (hm : marshalVars parms = .ok vs)
    (packed : String) :
    marshalQuery packed parms =
      .ok (.obj [("query", .str packed), ("variables", .obj vs)]) := by
  simp [marshalQuery, hm]

/-- The JSON request body `Query` serializes for a query text and
successfully marshalled variables. -/
def requestBody (packed : String) (vs : List (String × Json)) : Json :=
  .obj [("query", .str packed), ("variables", .obj vs)]

theorem query_eq_of_marshal_ok {gc : gqlClient} {env : HttpEnv}
    {queryStr : String} {parms : Variables} {vs : List (String × Json)}
    (r : QueryResponse) (hm : marshalVars parms = .ok vs) :
    Query gc env queryStr (some parms) r =
      (if env.urlOK gc.targetURL then
        let req := buildRequest gc (requestBody (packQuery queryStr) vs)
        match env.send req with
        | .failure cause => ⟨.failed (.transportError cause), r, [req]⟩
        | .success resp =>
          if resp.statusCode ≠ 200 then
            if resp.statusCode = 401 then
              ⟨.failed .authorizationError, r, [req]⟩
            else
              ⟨.failed (.statusError resp.statusCode resp.statusText), r, [req]⟩
          else
            match unmarshalEnvelope resp.body r with
            | .error m => ⟨.failed (.decodeError m), r, [req]⟩
            | .ok r' => ⟨.ok, r', [req]⟩
      else ⟨.panicked, r, []⟩) := by
  simp only [Query, marshalQuery_ok hm, requestBody]

/-! ## Claim theorems -/

/-- Claim C4 is a code bug: the Go method's doc comment promises that
`queryParms` may be nil, but the method immediately dereferences it
(`*queryParms`), so a nil variables pointer panics instead of being
treated as an empty mapping; no request is built and nothing is
returned. -/
theorem c4_nil_variables_panics (gc : gqlClient) (env : HttpEnv)
    (queryStr : String) (r : QueryResponse) :
    Query gc env queryStr none r = ⟨.panicked, r, []⟩ :=
  rfl

/-- Claim C5: when a variable value cannot be encoded as JSON, `Query`
returns the marshal error before any network I/O: no request reaches the
transport and the caller's response target is unchanged. -/
theorem c5_serialization_failure_atomic (gc : gqlClient) (env : HttpEnv)
    (queryStr : String) (parms : Variables) (r : QueryResponse)
    (e : String) (hm : marshalVars parms = .error e) :
    Query gc env queryStr (some parms) r =
      ⟨.failed (.serializationError e), r, []⟩ := by
  simp [Query, marshalQuery, hm]

/-- Witness for C5: a variables mapping holding a Go func value makes
`Query` fail with the marshal error, with no request sent and the
response target untouched. -/
theorem c5_serialization_failure_atomic_witness :
    marshalVars [("callback", GoValue.unencodable "func()")] =
      .error "json: unsupported type: func()" ∧
    Query (CreateClient "https://api.github.com/graphql" none)
        ⟨fun _ => true, fun _ => .failure "unreachable"⟩
        "query" (some [("callback", GoValue.unencodable "func()")]) ⟨none, []⟩ =
      ⟨.failed (.serializationError "json: unsupported type: func()"), ⟨none, []⟩, []⟩ :=
  ⟨rfl,
   c5_serialization_failure_atomic
     (CreateClient "https://api.github.com/graphql" none)
     ⟨fun _ => true, fun _ => .failure "unreachable"⟩
     "query" [("callback", GoValue.unencodable "func()")] ⟨none, []⟩
     "json: unsupported type: func()" rfl⟩

/-- Claim C6 is a code bug: construction indeed accepts any URL string
unvalidated, but on a URL that `http.NewRequest` rejects the method
discards the construction error (`req, _ :=`) and then calls
`req.Header.Set` on the nil request, so the call panics instead of
returning a transport error. -/
theorem c6_malformed_url_panics (gc : gqlClient) (env : HttpEnv)
    (queryStr : String) (parms : Variables) (r : QueryResponse)
    (vs : List (String × Json)) (hm : marshalVars parms = .ok vs)
    (hurl : env.urlOK gc.targetURL = false) :
    Query gc env queryStr (some parms) r = ⟨.panicked, r, []⟩ := by
  rw [query_eq_of_marshal_ok r hm, hurl]
  simp

/-- Witness for C6: a client built from the unparsable URL
"http://[::1" panics inside `Query` under a transport layer that rejects
that URL at request-construction time. -/
theorem c6_malformed_url_panics_witness :
    GetTargetURL (CreateClient "http://[::1" none) = "http://[::1" ∧
    Query (CreateClient "http://[::1" none)
        ⟨fun _ => false, fun _ => .failure "never reached"⟩
        "query" (some []) ⟨none, []⟩ =
      ⟨.panicked, ⟨none, []⟩, []⟩ :=
  ⟨rfl,
   c6_malformed_url_panics (CreateClient "http://[::1" none)
     ⟨fun _ => false, fun _ => .failure "never reached"⟩
     "query" [] ⟨none, []⟩ [] rfl rfl⟩

theorem decodeErrList_messages (msgs : List String) :
    decodeErrList (msgs.map fun m => Json.obj [("message", .str m)]) = .ok msgs := by
  induction msgs with
  | nil => rfl
  | cons m rest ih => simp [decodeErrList, decodeErrItem, lookupField, ih]

/-- A response body that is a well-formed GraphQL envelope: a `data`
payload and an `errors` array whose elements carry the given message
strings. -/
def envelopeBody (dta : Json) (msgs : List String) : Json :=
  .obj [("data", dta), ("errors", .arr (msgs.map fun m => .obj [("message", .str m)]))]

/-- Claim C1: an HTTP 200 round trip whose body decodes as a valid
response envelope makes `Query` return success even when the envelope's
errors list is non-empty, and the caller's response target then holds
exactly the body's error message strings, in order. -/
theorem c1_protocol_errors_returned_as_data (gc : gqlClient) (env : HttpEnv)
    (queryStr : String) (parms : Variables) (r : QueryResponse)
    (vs : List (String × Json)) (dta : Json) (msgs : List String)
    (text : String) (re : Option String)
    (hm : marshalVars parms = .ok vs)
    (hurl : env.urlOK gc.targetURL = true)
    (hsend : env.send (buildRequest gc (requestBody (packQuery queryStr) vs)) =
      .success ⟨200, text, some (envelopeBody dta msgs), re⟩) :
    (Query gc env queryStr (some parms) r).result = .ok ∧
    (Query gc env queryStr (some parms) r).response.Errors = msgs := by
  rw [query_eq_of_marshal_ok r hm, hurl]
  simp only [if_true]
  rw [hsend]
  simp only [ne_eq, reduceIte, unmarshalEnvelope, envelopeBody, decodeEnvelope,
    lookupField, decodeErrList_messages]
  simp [decodeErrList_messages]

/-- Witness for C1: the spec scenario body with the single message
"Could not resolve to a Repository" yields a successful call whose
response target holds exactly that one message. -/
theorem c1_protocol_errors_returned_as_data_witness :
    ((Query (CreateClient "https://api.github.com/graphql" none)
        ⟨fun _ => true,
         fun _ => .success ⟨200, "OK",
           some (envelopeBody .null ["Could not resolve to a Repository"]), none⟩⟩
        "query" (some []) ⟨none, []⟩).result = .ok ∧
     (Query (CreateClient "https://api.github.com/graphql" none)
        ⟨fun _ => true,
         fun _ => .success ⟨200, "OK",
           some (envelopeBody .null ["Could not resolve to a Repository"]), none⟩⟩
        "query" (some []) ⟨none, []⟩).response.Errors =
       ["Could not resolve to a Repository"]) ∧
    ["Could not resolve to a Repository"].length = 1 :=
  ⟨c1_protocol_errors_returned_as_data
     (CreateClient "https://api.github.com/graphql" none)
     ⟨fun _ => true,
      fun _ => .success ⟨200, "OK",
        some (envelopeBody .null ["Could not resolve to a Repository"]), none⟩⟩
     "query" [] ⟨none, []⟩ [] .null ["Could not resolve to a Repository"]
     "OK" none rfl rfl rfl,
   rfl⟩

/-- Claim C2: a completed round trip with a non-200 status makes `Query`
fail - with the dedicated 401 error on status 401, otherwise with the
status error carrying the numeric code and status text - without parsing
the response body (the universally quantified body and read error do not
appear in the outcome) and without writing the response target. -/
theorem c2_non_200_status_fails (gc : gqlClient) (env : HttpEnv)
    (queryStr : String) (parms : Variables) (r : QueryResponse)
    (vs : List (String × Json)) (code : Nat) (text : String)
    (b : Option Json) (re : Option String)
    (hm : marshalVars parms = .ok vs)
    (hurl : env.urlOK gc.targetURL = true)
    (hsend : env.send (buildRequest gc (requestBody (packQuery queryStr) vs)) =
      .success ⟨code, text, b, re⟩)
    (hne : code ≠ 200) :
    Query gc env queryStr (some parms) r =
      ⟨.failed (if code = 401 then .authorizationError else .statusError code text),
       r, [buildRequest gc (requestBody (packQuery queryStr) vs)]⟩ ∧
    ∀ c t, (GqlError.authorizationError ≠ GqlError.statusError c t) := by
  refine ⟨?_, by intro c t hct; cases hct⟩
  rw [query_eq_of_marshal_ok r hm, hurl]
  simp only [if_true]
  rw [hsend]
  simp only [ne_eq, hne, not_false_iff, if_true]
  by_cases h401 : code = 401 <;> simp [h401]

/-- Witness for C2: a 404 round trip fails with the status error
carrying 404 and "Not Found", and a 401 round trip fails with the
distinguished authorization error; neither writes the response target. -/
theorem c2_non_200_status_fails_witness :
    Query (CreateClient "https://api.github.com/graphql" none)
        ⟨fun _ => true, fun _ => .success ⟨404, "Not Found", none, none⟩⟩
        "query" (some []) ⟨none, []⟩ =
      ⟨.failed (.statusError 404 "Not Found"), ⟨none, []⟩,
       [buildRequest (CreateClient "https://api.github.com/graphql" none)
          (requestBody (packQuery "query") [])]⟩ ∧
    Query (CreateClient "https://api.github.com/graphql" none)
        ⟨fun _ => true, fun _ => .success ⟨401, "Unauthorized", none, none⟩⟩
        "query" (some []) ⟨none, []⟩ =
      ⟨.failed .authorizationError, ⟨none, []⟩,
       [buildRequest (CreateClient "https://api.github.com/graphql" none)
          (requestBody (packQuery "query") [])]⟩ := by
  constructor
  · have h := c2_non_200_status_fails
      (CreateClient "https://api.github.com/graphql" none)
      ⟨fun _ => true, fun _ => .success ⟨404, "Not Found", none, none⟩⟩
      "query" [] ⟨none, []⟩ [] 404 "Not Found" none none rfl rfl rfl (by decide)
    simpa using h.1
  · have h := c2_non_200_status_fails
      (CreateClient "https://api.github.com/graphql" none)
      ⟨fun _ => true, fun _ => .success ⟨401, "Unauthorized", none, none⟩⟩
      "query" [] ⟨none, []⟩ [] 401 "Unauthorized" none none rfl rfl rfl (by decide)
    simpa using h.1

/-- Claim C7: whenever a request is issued, it is a POST to the stored
target URL whose body is the serialized query wrapper, whose headers
always include the JSON content type, and which carries an Authorization
header exactly when a credential was stored, verbatim. -/
theorem c7_request_shape (gc : gqlClient) (env : HttpEnv)
    (queryStr : String) (parms : Variables) (r : QueryResponse)
    (vs : List (String × Json))
    (hm : marshalVars parms = .ok vs)
    (hurl : env.urlOK gc.targetURL = true) :
    (Query gc env queryStr (some parms) r).sent =
      [buildRequest gc (requestBody (packQuery queryStr) vs)] ∧
    ∀ body,
      (buildRequest gc body).method = "POST" ∧
      (buildRequest gc body).url = GetTargetURL gc ∧
      (buildRequest gc body).body = body ∧
      ("Content-Type", "application/json") ∈ (buildRequest gc body).headers ∧
      (gc.authorization = none →
        (buildRequest gc body).headers = [("Content-Type", "application/json")]) ∧
      ∀ a, gc.authorization = some a →
        (buildRequest gc body).headers =
          [("Content-Type", "application/json"), ("Authorization", a)] := by
  constructor
  · rw [query_eq_of_marshal_ok r hm, hurl]
    simp only [if_true]
    cases env.send (buildRequest gc (requestBody (packQuery queryStr) vs)) with
    | failure c => rfl
    | success resp =>
      dsimp only
      split
      · split
        · rfl
        · rfl
      · split
        · rfl
        · rfl
  · intro body
    refine ⟨rfl, rfl, rfl, List.mem_cons_self _ _, ?_, ?_⟩
    · intro h; simp [buildRequest, authHeaders, h]
    · intro a h; simp [buildRequest, authHeaders, h]

/-- Witness for C7: with a stored credential the single issued request
is a POST to the stored URL with both headers, the credential verbatim,
and the serialized body. -/
theorem c7_request_shape_witness :
    (Query (CreateClient "https://api.github.com/graphql" (some "token abc123"))
        ⟨fun _ => true, fun _ => .failure "connection refused"⟩
        "query" (some []) ⟨none, []⟩).sent =
      [buildRequest (CreateClient "https://api.github.com/graphql" (some "token abc123"))
        (requestBody (packQuery "query") [])] ∧
    (buildRequest (CreateClient "https://api.github.com/graphql" (some "token abc123"))
        (requestBody (packQuery "query") [])).headers =
      [("Content-Type", "application/json"), ("Authorization", "token abc123")] := by
  have h := c7_request_shape
    (CreateClient "https://api.github.com/graphql" (some "token abc123"))
    ⟨fun _ => true, fun _ => .failure "connection refused"⟩
    "query" [] ⟨none, []⟩ [] rfl rfl
  exact ⟨h.1, (h.2 (requestBody (packQuery "query") [])).2.2.2.2.2 "token abc123" rfl⟩

/-- The arguments of one `Query` call in a call sequence. -/
structure QueryCall where
  env : HttpEnv
  queryStr : String
  queryParms : Option Variables
  response : QueryResponse

/-- Run a sequence of `Query` calls on one handle. The Go method takes
its receiver by value and its body never assigns to the receiver's
fields, so every call observes and leaves the same handle. -/
def runQueries (gc : gqlClient) : List QueryCall → gqlClient × List QueryOutcome
  | [] => (gc, [])
  | c :: rest =>
    let out := Query gc c.env c.queryStr c.queryParms c.response
    ((runQueries gc rest).1, out :: (runQueries gc rest).2)

theorem runQueries_fst (gc : gqlClient) (calls : List QueryCall) :
    (runQueries gc calls).1 = gc := by
  induction calls with
  | nil => rfl
  | cons c rest ih => simpa [runQueries] using ih

/-- Claim C8: a handle constructed with URL U always reports exactly U
from `GetTargetURL`, and no sequence of `Query` calls - succeeding or
failing - changes the stored target URL or credential. -/
theorem c8_configuration_immutable (U : String) (a : Option String)
    (calls : List QueryCall) :
    GetTargetURL (CreateClient U a) = U ∧
    (runQueries (CreateClient U a) calls).1 = CreateClient U a ∧
    GetTargetURL (runQueries (CreateClient U a) calls).1 = U ∧
    ((runQueries (CreateClient U a) calls).1).authorization = a := by
  refine ⟨rfl, runQueries_fst _ _, ?_, ?_⟩
  · rw [runQueries_fst]; rfl
  · rw [runQueries_fst]; rfl

/-- Headers with any Authorization binding removed. -/
def stripAuth (hs : List (String × String)) : List (String × String) :=
  hs.filter fun p => p.1 != "Authorization"

/-- A transport whose responses depend on everything in the request
except the Authorization header. -/
def sendIgnoringAuth
    (f : String → String → List (String × String) → Json → TransportResult) :
    HttpRequest → TransportResult :=
  fun q => f q.method q.url (stripAuth q.headers) q.body

theorem stripAuth_headers (a : Option String) :
    stripAuth (("Content-Type", "application/json") :: authHeaders a) =
      [("Content-Type", "application/json")] := by
  cases a <;> rfl

/-- Claim C9: the stored credential is write-only. Two clients built
with the same URL but different credentials are indistinguishable
through every public operation - `GetTargetURL`, `Query`'s result, and
the populated response target - whenever the transport's responses do
not depend on the Authorization header; the credential influences
nothing but that header of the outgoing request. -/
theorem c9_credential_write_only (u : String) (a1 a2 : Option String)
    (uok : String → Bool)
    (f : String → String → List (String × String) → Json → TransportResult)
    (queryStr : String) (parms : Option Variables) (r : QueryResponse) :
    GetTargetURL (CreateClient u a1) = GetTargetURL (CreateClient u a2) ∧
    (Query (CreateClient u a1) ⟨uok, sendIgnoringAuth f⟩ queryStr parms r).result =
      (Query (CreateClient u a2) ⟨uok, sendIgnoringAuth f⟩ queryStr parms r).result ∧
    (Query (CreateClient u a1) ⟨uok, sendIgnoringAuth f⟩ queryStr parms r).response =
      (Query (CreateClient u a2) ⟨uok, sendIgnoringAuth f⟩ queryStr parms r).response ∧
    (Query (CreateClient u a1) ⟨uok, sendIgnoringAuth f⟩ queryStr parms r).sent.map
        (fun q => (q.method, q.url, stripAuth q.headers, q.body)) =
      (Query (CreateClient u a2) ⟨uok, sendIgnoringAuth f⟩ queryStr parms r).sent.map
        (fun q => (q.method, q.url, stripAuth q.headers, q.body)) := by
  refine ⟨rfl, ?_⟩
  cases parms with
  | none => exact ⟨rfl, rfl, rfl⟩
  | some ps =>
    cases hm : marshalQuery (packQuery queryStr) ps with
    | error e => simp [Query, hm]
    | ok body =>
      simp only [Query, hm, CreateClient]
      have hsend : ∀ a : Option String,
          sendIgnoringAuth f (buildRequest (⟨u, a⟩ : gqlClient) body) =
            f "POST" u [("Content-Type", "application/json")] body := by
        intro a
        show f "POST" u
            (stripAuth (("Content-Type", "application/json") :: authHeaders a)) body =
          f "POST" u [("Content-Type", "application/json")] body
        rw [stripAuth_headers]
      by_cases hu : uok u = true
      · simp only [if_pos hu]
        rw [hsend a1, hsend a2]
        cases f "POST" u [("Content-Type", "application/json")] body with
        | failure c => exact ⟨rfl, rfl, by simp [buildRequest, stripAuth_headers]⟩
        | success resp =>
          dsimp only
          split
          · split
            · exact ⟨rfl, rfl, by simp [buildRequest, stripAuth_headers]⟩
            · exact ⟨rfl, rfl, by simp [buildRequest, stripAuth_headers]⟩
          · cases unmarshalEnvelope resp.body r with
            | error m => exact ⟨rfl, rfl, by simp [buildRequest, stripAuth_headers]⟩
            | ok r' => exact ⟨rfl, rfl, by simp [buildRequest, stripAuth_headers]⟩
      · simp [if_neg hu]

/-- Replace the body-read error a transport result reports with no
error, leaving the status and the obtained bytes as they were. -/
def eraseReadErr : TransportResult → TransportResult
  | .failure c => .failure c
  | .success resp => .success ⟨resp.statusCode, resp.statusText, resp.body, none⟩

/-- Claim C10 (implicit): the error from reading a 200 response body is
discarded - `Query`'s outcome is invariant under erasing every read
error the transport reports - and when the obtained bytes are not valid
JSON (empty or truncated), the failure surfaces as the JSON decode
error, never as a transport error. -/
theorem c10_read_error_discarded (gc : gqlClient) (uok : String → Bool)
    (send : HttpRequest → TransportResult) (queryStr : String)
    (parms : Option Variables) (r : QueryResponse) :
    Query gc ⟨uok, fun q => eraseReadErr (send q)⟩ queryStr parms r =
      Query gc ⟨uok, send⟩ queryStr parms r ∧
    ∀ ps vs text re, parms = some ps → marshalVars ps = .ok vs →
      uok gc.targetURL = true →
      send (buildRequest gc (requestBody (packQuery queryStr) vs)) =
        .success ⟨200, text, none, re⟩ →
      (Query gc ⟨uok, send⟩ queryStr parms r).result =
        .failed (.decodeError "unexpected end of JSON input") := by
  constructor
  · cases parms with
    | none => rfl
    | some ps =>
      cases hm : marshalQuery (packQuery queryStr) ps with
      | error e => simp [Query, hm]
      | ok body =>
        simp only [Query, hm]
        by_cases hu : uok gc.targetURL = true
        · simp only [if_pos hu]
          cases send (buildRequest gc body) with
          | failure c => rfl
          | success resp => rfl
        · simp only [if_neg hu]
  · intro ps vs text re hps hm hu hsend
    subst hps
    rw [query_eq_of_marshal_ok r hm]
    dsimp only
    rw [if_pos hu, hsend]
    rfl

/-- Witness for C10: under a transport that returns 200 with unreadable
body bytes and a reported read error, the erased and original transports
give the same outcome, and the call fails with the JSON decode error. -/
theorem c10_read_error_discarded_witness :
    (Query (CreateClient "https://api.github.com/graphql" none)
        ⟨fun _ => true,
         fun q => eraseReadErr ((fun _ => TransportResult.success
           ⟨200, "OK", none, some "read: connection reset by peer"⟩) q)⟩
        "query" (some []) ⟨none, []⟩ =
      Query (CreateClient "https://api.github.com/graphql" none)
        ⟨fun _ => true,
         fun _ => .success ⟨200, "OK", none, some "read: connection reset by peer"⟩⟩
        "query" (some []) ⟨none, []⟩) ∧
    (Query (CreateClient "https://api.github.com/graphql" none)
        ⟨fun _ => true,
         fun _ => .success ⟨200, "OK", none, some "read: connection reset by peer"⟩⟩
        "query" (some []) ⟨none, []⟩).result =
      .failed (.decodeError "unexpected end of JSON input") := by
  have h := c10_read_error_discarded
    (CreateClient "https://api.github.com/graphql" none) (fun _ => true)
    (fun _ => .success ⟨200, "OK", none, some "read: connection reset by peer"⟩)
    "query" (some []) ⟨none, []⟩
  exact ⟨h.1, h.2 [] [] "OK" (some "read: connection reset by peer") rfl rfl rfl rfl⟩

end Gql
